import Mathlib

/-!
Shallow embedding of the gtsam `matlab.h` utilities (`gtsam::utilities`):
key/symbol codecs, typed matrix extraction from a heterogeneous value store,
seeded perturbation, projection-factor assembly, reprojection-residual
collection, and local-to-world frame retargeting.

Scalars are modelled as exact rationals (the spec's matrix contracts are about
column semantics, not floating-point bit patterns).  External collaborators
that live outside `src/` (the geometry library's `retract`/`compose`/
`transformFrom`, the camera's `backproject`, the sampler's underlying
standard-normal stream, and a factor's `unwhitenedError`) are passed as
explicit function parameters, following the spec's description of them as
opaque services.
-/

/-- Keys are opaque 64-bit identifiers with a total order; we model them as
naturals ordered the usual way. -/
abbrev Key := Nat

/-- 2-D point, rational model of `gtsam::Point2`. -/
structure Point2 where
  x : ℚ
  y : ℚ
deriving DecidableEq

/-- 3-D point, rational model of `gtsam::Point3`. -/
structure Point3 where
  x : ℚ
  y : ℚ
  z : ℚ
deriving DecidableEq

/-- 2-D pose with planar position and heading, model of `gtsam::Pose2`
as the spec's data model presents it (x, y, heading). -/
structure Pose2 where
  x : ℚ
  y : ℚ
  theta : ℚ
deriving DecidableEq

/-- 3-D rotation held as its 3x3 matrix entries, model of `gtsam::Rot3`
as consumed by `extractPose3` (only the matrix accessor is used). -/
structure Rot3 where
  r11 : ℚ
  r12 : ℚ
  r13 : ℚ
  r21 : ℚ
  r22 : ℚ
  r23 : ℚ
  r31 : ℚ
  r32 : ℚ
  r33 : ℚ
deriving DecidableEq

/-- 3-D pose: rotation plus translation, model of `gtsam::Pose3`. -/
structure Pose3 where
  rot : Rot3
  tx : ℚ
  ty : ℚ
  tz : ℚ
deriving DecidableEq

/-- Modelled from the spec: a Typed Value Store entry's payload is a
polymorphic geometric value carrying its runtime-type tag (`gtsam::Values`
is not under `src/`; the spec describes it as a tagged heterogeneous store).
`vother` stands for any stored type the utilities do not support. -/
inductive GVal where
  | vpoint2 (p : Point2)
  | vpoint3 (p : Point3)
  | vpose2 (p : Pose2)
  | vpose3 (p : Pose3)
  | vother (tag : Nat)
deriving DecidableEq

/-- Modelled from the spec: the Typed Value Store is a sorted mapping from
Key to polymorphic value; we model it as an association list whose natural
iteration order is its list order. -/
abbrev Values := List (Key × GVal)

/-- The store invariant: entries are in strictly ascending key order (this is
the spec's load-bearing iteration-order contract, and implies key uniqueness). -/
abbrev ValuesSorted (vs : Values) : Prop :=
  vs.Pairwise (fun a b => a.1 < b.1)

/-- Modelled from the spec: typed lookup; `none` models the store collaborator
signalling missing-key (the caller sees the type-specific view below). -/
def vlookup : Values → Key → Option GVal
  | [], _ => none
  | (k0, v0) :: rest, k => if k = k0 then some v0 else vlookup rest k

/-- Modelled from the spec: `at<Pose2>(key)` — succeeds only when the key is
present and holds a 2-D pose; failure (missing key or type mismatch) is `none`. -/
def atPose2 (vs : Values) (k : Key) : Option Pose2 :=
  match vlookup vs k with
  | some (GVal.vpose2 p) => some p
  | _ => none

/-- Modelled from the spec: `at<Point2>(key)`. -/
def atPoint2 (vs : Values) (k : Key) : Option Point2 :=
  match vlookup vs k with
  | some (GVal.vpoint2 p) => some p
  | _ => none

/-- Modelled from the spec: `Values::insert(key, value)` keeps the map sorted
and fails (throws `ValuesKeyAlreadyExists`) when the key is already present. -/
def insertV : Values → Key → GVal → Except String Values
  | [], k, v => Except.ok [(k, v)]
  | (k0, v0) :: rest, k, v =>
    if k < k0 then Except.ok ((k, v) :: (k0, v0) :: rest)
    else if k = k0 then Except.error "ValuesKeyAlreadyExists"
    else (insertV rest k v).map (fun w => (k0, v0) :: w)

/-- Dense matrix as a list of rows (rationals). -/
abbrev Mat := List (List ℚ)

/-- Number of rows. -/
def matRowsN (m : Mat) : Nat := m.length

/-- Number of columns (of the first row; Eigen matrices are rectangular,
stated as a hypothesis where it matters). -/
def matColsN (m : Mat) : Nat := (m.headD []).length

/-- Rectangularity: every row has the declared column count. -/
def MatWF (m : Mat) : Prop := ∀ row ∈ m, row.length = matColsN m

/-- Entry `m(r, c)`, defaulting to 0 out of range. -/
def matEntry (m : Mat) (r c : Nat) : ℚ := (m.getD r []).getD c 0

/-- Column `c` of the matrix, read top to bottom. -/
def matCol (m : Mat) (c : Nat) : List ℚ := m.map (fun row => row.getD c 0)

/- ------------------------------------------------------------------ -/
/- Key/Symbol codec (createKeyList / createKeyVector / createKeySet)  -/
/- ------------------------------------------------------------------ -/

/-- `createKeyList(I)`: raw keys, one per index, preserving order. -/
def createKeyList (I : List Nat) : List Key := I.map (fun j => j)

/-- `createKeyVector(I)`: raw keys, one per index, preserving order. -/
def createKeyVector (I : List Nat) : List Key := I.map (fun j => j)

/-- Modelled from the spec: the symbolic Key encoding (`gtsam::Symbol` is not
under `src/`).  It packs an 8-bit character tag and a 56-bit index into one
64-bit value so that decoding recovers both exactly; indices beyond the
encodable range overflow by truncation. -/
def symbolKey (c : Nat) (j : Nat) : Nat := (c % 256) * 2 ^ 56 + j % 2 ^ 56

/-- Modelled from the spec: decode the character tag of a symbolic key. -/
def symbolChr (k : Nat) : Nat := k / 2 ^ 56

/-- Modelled from the spec: decode the index of a symbolic key. -/
def symbolIndex (k : Nat) : Nat := k % 2 ^ 56

/-- `s[0]` on a C++ string: its first character (the null character for the
empty string), reduced to its 8-bit value. -/
def firstChar (s : List Char) : Nat := (s.headD (Char.ofNat 0)).toNat % 256

/-- `createKeyList(s, I)`: symbolic keys built from the FIRST character of the
tag string and each index, in input order. -/
def createKeyListSym (s : List Char) (I : List Nat) : List Key :=
  I.map (fun j => symbolKey (firstChar s) j)

/-- `createKeyVector(s, I)`: same construction into a vector. -/
def createKeyVectorSym (s : List Char) (I : List Nat) : List Key :=
  I.map (fun j => symbolKey (firstChar s) j)

/-- Ordered-set insertion (model of `FastSet` = `std::set`): sorted, no
duplicates. -/
def keySetInsert : List Key → Key → List Key
  | [], k => [k]
  | k0 :: rest, k =>
    if k < k0 then k :: k0 :: rest
    else if k = k0 then k0 :: rest
    else k0 :: keySetInsert rest k

/-- `createKeySet(s, I)`: symbolic keys inserted into an ordered set. -/
def createKeySetSym (s : List Char) (I : List Nat) : List Key :=
  I.foldl (fun acc j => keySetInsert acc (symbolKey (firstChar s) j)) []

/- ------------------------------------------------------------------ -/
/- Matrix extraction (extractPoint2 / extractPoint3 / extractPose2 /  -/
/- extractPose3)                                                      -/
/- ------------------------------------------------------------------ -/

/-- The store filtered to its 2-D point entries, in store order
(`values.filter<Point2>()`). -/
def point2Entries (vs : Values) : List (Key × Point2) :=
  vs.filterMap (fun kv =>
    match kv.2 with
    | GVal.vpoint2 p => some (kv.1, p)
    | _ => none)

/-- The store filtered to its 3-D point entries, in store order. -/
def point3Entries (vs : Values) : List (Key × Point3) :=
  vs.filterMap (fun kv =>
    match kv.2 with
    | GVal.vpoint3 p => some (kv.1, p)
    | _ => none)

/-- The store filtered to its 2-D pose entries, in store order. -/
def pose2Entries (vs : Values) : List (Key × Pose2) :=
  vs.filterMap (fun kv =>
    match kv.2 with
    | GVal.vpose2 p => some (kv.1, p)
    | _ => none)

/-- The store filtered to its 3-D pose entries, in store order. -/
def pose3Entries (vs : Values) : List (Key × Pose3) :=
  vs.filterMap (fun kv =>
    match kv.2 with
    | GVal.vpose3 p => some (kv.1, p)
    | _ => none)

/-- `extractPoint2`: one row `[x, y]` per 2-D point entry, filling rows in the
filtered store's iteration order. -/
def extractPoint2 (vs : Values) : Mat :=
  (point2Entries vs).map (fun e => [e.2.x, e.2.y])

/-- `extractPoint3`: one row `[x, y, z]` per 3-D point entry. -/
def extractPoint3 (vs : Values) : Mat :=
  (point3Entries vs).map (fun e => [e.2.x, e.2.y, e.2.z])

/-- `extractPose2`: one row `[x, y, theta]` per 2-D pose entry. -/
def extractPose2 (vs : Values) : Mat :=
  (pose2Entries vs).map (fun e => [e.2.x, e.2.y, e.2.theta])

/-- `extractPose3`: one row per 3-D pose entry: the rotation matrix flattened
row-major (row 0, row 1, row 2) followed by the translation. -/
def extractPose3 (vs : Values) : Mat :=
  (pose3Entries vs).map (fun e =>
    [e.2.rot.r11, e.2.rot.r12, e.2.rot.r13,
     e.2.rot.r21, e.2.rot.r22, e.2.rot.r23,
     e.2.rot.r31, e.2.rot.r32, e.2.rot.r33,
     e.2.tx, e.2.ty, e.2.tz])

/- ------------------------------------------------------------------ -/
/- Perturbation engine (perturbPoint2 / perturbPose2 / perturbPoint3) -/
/- ------------------------------------------------------------------ -/

/-- Modelled from the spec: the Sampler's underlying standard-normal stream is
a deterministic function of the seed and the draw position (identical seed and
identical draw sequence give identical samples).  A concrete stream is passed
in as `gauss`; the sampler scales draw `i` of call `j` by the noise model's
per-axis sigma. -/
abbrev GaussStream := Int → Nat → ℚ

/-- Point-2 manifold update (external geometry collaborator): applied as
`value.retract(sample)`. -/
abbrev RetractP2 := Point2 → ℚ × ℚ → Point2

/-- Point-3 manifold update (external geometry collaborator). -/
abbrev RetractP3 := Point3 → ℚ × ℚ × ℚ → Point3

/-- Pose-2 manifold update (external geometry collaborator). -/
abbrev RetractPose2 := Pose2 → ℚ × ℚ × ℚ → Pose2

/-- Worker for `perturbPoint2`: walks the store in order, and at the `j`-th
2-D point entry (counting only matching entries) draws one dim-2 sample from
the isotropic model — draws `2j` and `2j+1` of the seeded stream scaled by
`sigma` — and replaces the value by its retraction. -/
def perturbPoint2Go (gauss : GaussStream) (r2 : RetractP2) (sigma : ℚ)
    (seed : Int) : List (Key × GVal) → Nat → List (Key × GVal)
  | [], _ => []
  | (k, GVal.vpoint2 p) :: rest, j =>
    (k, GVal.vpoint2 (r2 p
        (sigma * gauss seed (2 * j), sigma * gauss seed (2 * j + 1)))) ::
      perturbPoint2Go gauss r2 sigma seed rest (j + 1)
  | kv :: rest, j => kv :: perturbPoint2Go gauss r2 sigma seed rest j

/-- `perturbPoint2(values, sigma, seed)`: isotropic dim-2 noise model, one
sampler bound to the seed, one draw per 2-D point entry in store order. -/
def perturbPoint2 (gauss : GaussStream) (r2 : RetractP2) (vs : Values)
    (sigma : ℚ) (seed : Int) : Values :=
  perturbPoint2Go gauss r2 sigma seed vs 0

/-- `perturbPoint2` with the seed argument omitted: the declaration's default
seed is 42. -/
def perturbPoint2Default (gauss : GaussStream) (r2 : RetractP2) (vs : Values)
    (sigma : ℚ) : Values :=
  perturbPoint2 gauss r2 vs sigma 42

/-- Worker for the diagonal dim-3 perturbations: per-axis sigmas
`(s0, s1, s2)`, draws `3j`, `3j+1`, `3j+2` at the `j`-th matching entry. -/
def perturbPose2Go (gauss : GaussStream) (rp : RetractPose2)
    (s0 s1 s2 : ℚ) (seed : Int) : List (Key × GVal) → Nat → List (Key × GVal)
  | [], _ => []
  | (k, GVal.vpose2 p) :: rest, j =>
    (k, GVal.vpose2 (rp p
        (s0 * gauss seed (3 * j), s1 * gauss seed (3 * j + 1),
         s2 * gauss seed (3 * j + 2)))) ::
      perturbPose2Go gauss rp s0 s1 s2 seed rest (j + 1)
  | kv :: rest, j => kv :: perturbPose2Go gauss rp s0 s1 s2 seed rest j

/-- General diagonal-sigmas perturbation of the 2-D pose entries (the noise
model with independent per-axis sigmas, as the spec describes diagonal
models). -/
def perturbPose2Diag (gauss : GaussStream) (rp : RetractPose2) (vs : Values)
    (s0 s1 s2 : ℚ) (seed : Int) : Values :=
  perturbPose2Go gauss rp s0 s1 s2 seed vs 0

/-- `perturbPose2(values, sigmaT, sigmaR, seed)`: builds its diagonal noise
model from `Vector3(sigmaT, sigmaT, sigmaR)` — the two translation axes share
one sigma — then perturbs every 2-D pose entry in store order. -/
def perturbPose2 (gauss : GaussStream) (rp : RetractPose2) (vs : Values)
    (sigmaT sigmaR : ℚ) (seed : Int) : Values :=
  perturbPose2Diag gauss rp vs sigmaT sigmaT sigmaR seed

/-- `perturbPose2` with the seed argument omitted: default seed 42. -/
def perturbPose2Default (gauss : GaussStream) (rp : RetractPose2) (vs : Values)
    (sigmaT sigmaR : ℚ) : Values :=
  perturbPose2 gauss rp vs sigmaT sigmaR 42

/-- Worker for `perturbPoint3`: isotropic dim-3 model. -/
def perturbPoint3Go (gauss : GaussStream) (r3 : RetractP3) (sigma : ℚ)
    (seed : Int) : List (Key × GVal) → Nat → List (Key × GVal)
  | [], _ => []
  | (k, GVal.vpoint3 p) :: rest, j =>
    (k, GVal.vpoint3 (r3 p
        (sigma * gauss seed (3 * j), sigma * gauss seed (3 * j + 1),
         sigma * gauss seed (3 * j + 2)))) ::
      perturbPoint3Go gauss r3 sigma seed rest (j + 1)
  | kv :: rest, j => kv :: perturbPoint3Go gauss r3 sigma seed rest j

/-- `perturbPoint3(values, sigma, seed)`. -/
def perturbPoint3 (gauss : GaussStream) (r3 : RetractP3) (vs : Values)
    (sigma : ℚ) (seed : Int) : Values :=
  perturbPoint3Go gauss r3 sigma seed vs 0

/-- `perturbPoint3` with the seed argument omitted: default seed 42. -/
def perturbPoint3Default (gauss : GaussStream) (r3 : RetractP3) (vs : Values)
    (sigma : ℚ) : Values :=
  perturbPoint3 gauss r3 vs sigma 42

/- ------------------------------------------------------------------ -/
/- Factor assembly and residual collection                            -/
/- ------------------------------------------------------------------ -/

/-- A Measurement Factor (`GenericProjectionFactor<Pose3, Point3>`): binds one
pose key, one landmark key, the observed pixel, a noise model, a calibration
object and a fixed sensor offset.  The noise model and calibration are opaque
shared objects, modelled by identifiers. -/
structure ProjF where
  poseKey : Key
  lmKey : Key
  px : ℚ
  py : ℚ
  noise : Nat
  calib : Nat
  offset : Pose3
deriving DecidableEq

/-- A factor in the graph: either a Measurement Factor or a factor of any
other runtime kind (the downcast in the source distinguishes exactly these). -/
inductive Factor where
  | proj (p : ProjF)
  | other (tag : Nat)
deriving DecidableEq

/-- The Factor Collection: an ordered sequence, iteration order = insertion
order. -/
abbrev FactorGraph := List Factor

/-- Modelled from the spec: the camera collaborator's
`backproject(pixel, depth)` operator, passed as a function. -/
abbrev Backproject := (ℚ × ℚ) → ℚ → Point3

/-- `insertBackprojections(values, camera, J, Z, depth)`: after validating
that `Z` is 2-by-K with K = `J.size()`, backprojects each column's pixel at
the fixed depth and inserts the resulting 3-D point at the paired key.
Shape violations fail before any insertion. -/
def insertBackprojections (camera : Backproject) (vs : Values) (J : List Key)
    (Z : Mat) (depth : ℚ) : Except String Values :=
  if matRowsN Z ≠ 2 then
    Except.error "insertBackProjections: Z must be 2*K"
  else if matColsN Z ≠ J.length then
    Except.error "insertBackProjections: J and Z must have same number of entries"
  else
    (List.range (matColsN Z)).foldlM (fun acc k =>
      insertV acc (J.getD k 0)
        (GVal.vpoint3 (camera (matEntry Z 0 k, matEntry Z 1 k) depth))) vs

/-- `insertProjectionFactors(graph, i, J, Z, model, K, body_P_sensor)`: after
the same shape validation, appends one Measurement Factor per column of `Z`,
in column order, each binding the pose key `i`, landmark key `J(k)`, pixel
`(Z(0,k), Z(1,k))`, the noise model, the calibration and the sensor offset. -/
def insertProjectionFactors (graph : FactorGraph) (i : Key) (J : List Key)
    (Z : Mat) (model : Nat) (calib : Nat) (body_P_sensor : Pose3) :
    Except String FactorGraph :=
  if matRowsN Z ≠ 2 then
    Except.error "addMeasurements: Z must be 2*K"
  else if matColsN Z ≠ J.length then
    Except.error "addMeasurements: J and Z must have same number of entries"
  else
    Except.ok (graph ++ (List.range (matColsN Z)).map (fun k =>
      Factor.proj
        { poseKey := i, lmKey := J.getD k 0,
          px := matEntry Z 0 k, py := matEntry Z 1 k,
          noise := model, calib := calib, offset := body_P_sensor }))

/-- Modelled from the spec: a Measurement Factor's `unwhitenedError(values)`
(dim-2 residual), an opaque service of the factor-graph collaborator. -/
abbrev UnwhitenedError := ProjF → Values → ℚ × ℚ

/-- The graph filtered to its Measurement Factors, preserving relative order
(the downcast test of the source). -/
def projFactors (graph : FactorGraph) : List ProjF :=
  graph.filterMap (fun f =>
    match f with
    | Factor.proj p => some p
    | Factor.other _ => none)

/-- `reprojectionErrors(graph, values)`: counts the Measurement Factors, then
fills a 2-by-K matrix whose `k`-th column is the unwhitened residual of the
`k`-th Measurement Factor in graph order. -/
def reprojectionErrors (err : UnwhitenedError) (graph : FactorGraph)
    (vs : Values) : Mat :=
  let rs := (projFactors graph).map (fun p => err p vs)
  [rs.map Prod.fst, rs.map Prod.snd]

/- ------------------------------------------------------------------ -/
/- Frame retargeting (localToWorld)                                   -/
/- ------------------------------------------------------------------ -/

/-- Pose-2 composition (external geometry collaborator), passed as a
function. -/
abbrev ComposeP := Pose2 → Pose2 → Pose2

/-- Pose-2 `transform_from` on a point (external geometry collaborator). -/
abbrev TransformFromP := Pose2 → Point2 → Point2

/-- One step of `localToWorld`'s loop body: the try/catch chain of the source.
Try the key as a 2-D pose (composing with the base and inserting); any failure
inside that block — type mismatch, missing key, or the insert throwing on a
duplicate key — falls through to the 2-D point interpretation; any failure
there falls through to doing nothing. -/
def localToWorldStep (compose : ComposeP) (tf : TransformFromP)
    (loc : Values) (base : Pose2) (world : Values) (key : Key) : Values :=
  match atPose2 loc key with
  | some pose =>
    match insertV world key (GVal.vpose2 (compose base pose)) with
    | Except.ok w => w
    | Except.error _ =>
      match atPoint2 loc key with
      | some point =>
        match insertV world key (GVal.vpoint2 (tf base point)) with
        | Except.ok w => w
        | Except.error _ => world
      | none => world
  | none =>
    match atPoint2 loc key with
    | some point =>
      match insertV world key (GVal.vpoint2 (tf base point)) with
      | Except.ok w => w
      | Except.error _ => world
    | none => world

/-- `localToWorld(local, base, user_keys)`: over the user's keys — or every
key of the store when none are given — build a fresh store holding the
base-composed poses and base-transformed points, silently skipping keys that
hold neither type. -/
def localToWorld (compose : ComposeP) (tf : TransformFromP) (loc : Values)
    (base : Pose2) (user_keys : List Key) : Values :=
  let keys := if user_keys.isEmpty then loc.map Prod.fst else user_keys
  keys.foldl (localToWorldStep compose tf loc base) []

/-- What the spec's precedence clause assigns to one key: the composed pose if
the key holds a 2-D pose, the transformed point if it holds a 2-D point, and
nothing otherwise.  Stated from the spec's words, to be compared with
`localToWorld`. -/
def retargetExpected (compose : ComposeP) (tf : TransformFromP)
    (loc : Values) (base : Pose2) (key : Key) : Option GVal :=
  match vlookup loc key with
  | some (GVal.vpose2 a) => some (GVal.vpose2 (compose base a))
  | some (GVal.vpoint2 b) => some (GVal.vpoint2 (tf base b))
  | _ => none

/-- First-biased choice on options, used to phrase lookup-after-fold
lemmas. -/
def oor (a b : Option GVal) : Option GVal :=
  match a with
  | some x => some x
  | none => b

/-- Runtime-kind test used by the residual collector's downcast. -/
def isProjF : Factor → Bool
  | Factor.proj _ => true
  | Factor.other _ => false

/-- Runtime-type test: does the entry hold a 2-D point? -/
def isPoint2E (kv : Key × GVal) : Bool :=
  match kv.2 with
  | GVal.vpoint2 _ => true
  | _ => false

/-- Runtime-type test: does the entry hold a 3-D point? -/
def isPoint3E (kv : Key × GVal) : Bool :=
  match kv.2 with
  | GVal.vpoint3 _ => true
  | _ => false

/-- Runtime-type test: does the entry hold a 2-D pose? -/
def isPose2E (kv : Key × GVal) : Bool :=
  match kv.2 with
  | GVal.vpose2 _ => true
  | _ => false

/-- Runtime-type test: does the entry hold a 3-D pose? -/
def isPose3E (kv : Key × GVal) : Bool :=
  match kv.2 with
  | GVal.vpose3 _ => true
  | _ => false

/-- A small concrete store used to evaluate the theorems on explicit input:
2-D points at keys 1 and 5, a 2-D pose at key 3, a 3-D point at key 6, a 3-D
pose at key 8, and an unsupported value at key 9. -/
def demoStore : Values :=
  [(1, GVal.vpoint2 ⟨1, 1⟩),
   (3, GVal.vpose2 ⟨2, 0, 1⟩),
   (5, GVal.vpoint2 ⟨2, 2⟩),
   (6, GVal.vpoint3 ⟨4, 5, 6⟩),
   (8, GVal.vpose3 ⟨⟨1, 0, 0, 0, 1, 0, 0, 0, 1⟩, 7, 8, 9⟩),
   (9, GVal.vother 0)]

/- ================================================================== -/
/- Theorems                                                           -/
/- ================================================================== -/

/-- Generic: the length of a `filterMap` is the count of elements the
function accepts. -/
theorem length_filterMap_eq_countP {α β : Type} (f : α → Option β)
    (l : List α) :
    (l.filterMap f).length = l.countP (fun a => (f a).isSome) := by
  induction l with
  | nil => rfl
  | cons a l ih =>
    cases h : f a <;>
      simp [List.filterMap_cons, h, List.countP_cons, ih]

/-- Generic: a key-preserving `filterMap` of a store in strictly ascending
key order is again in strictly ascending key order. -/
theorem pairwise_keys_filterMap {β : Type} (f : Key × GVal → Option (Key × β))
    (hf : ∀ kv p, f kv = some p → p.1 = kv.1) :
    ∀ vs : Values, ValuesSorted vs →
      (vs.filterMap f).Pairwise (fun a b => a.1 < b.1) := by
  intro vs
  induction vs with
  | nil => intro _; simp
  | cons kv rest ih =>
    intro h
    obtain ⟨hk, hrest⟩ := List.pairwise_cons.mp h
    rw [List.filterMap_cons]
    cases hfa : f kv with
    | none => exact ih hrest
    | some p =>
      refine List.Pairwise.cons ?_ (ih hrest)
      intro b hb
      obtain ⟨kv2, hmem, heq⟩ := List.mem_filterMap.mp hb
      rw [hf kv p hfa, hf kv2 b heq]
      exact hk kv2 hmem

/-- C9: when the seed argument is omitted, every perturbation function uses
the declaration's fixed default seed 42, so two calls omitting the seed on
identical stores coincide (both equal the seed-42 call). -/
theorem perturb_default_seed_42 :
    (∀ (gauss : GaussStream) (r2 : RetractP2) (vs : Values) (sigma : ℚ),
      perturbPoint2Default gauss r2 vs sigma =
        perturbPoint2 gauss r2 vs sigma 42) ∧
    (∀ (gauss : GaussStream) (rp : RetractPose2) (vs : Values)
        (sigmaT sigmaR : ℚ),
      perturbPose2Default gauss rp vs sigmaT sigmaR =
        perturbPose2 gauss rp vs sigmaT sigmaR 42) ∧
    (∀ (gauss : GaussStream) (r3 : RetractP3) (vs : Values) (sigma : ℚ),
      perturbPoint3Default gauss r3 vs sigma =
        perturbPoint3 gauss r3 vs sigma 42) :=
  ⟨fun _ _ _ _ => rfl, fun _ _ _ _ _ => rfl, fun _ _ _ _ => rfl⟩

/-- C10: `perturbPose2` takes exactly two scalars and equals the general
per-axis diagonal perturbation at sigmas `(sigmaT, sigmaT, sigmaR)` — the two
translation axes always share one sigma. -/
theorem perturbPose2_shared_translation_sigma :
    ∀ (gauss : GaussStream) (rp : RetractPose2) (vs : Values)
      (sigmaT sigmaR : ℚ) (seed : Int),
      perturbPose2 gauss rp vs sigmaT sigmaR seed =
        perturbPose2Diag gauss rp vs sigmaT sigmaT sigmaR seed :=
  fun _ _ _ _ _ _ => rfl

/-- C6: with the underlying sampler stream a deterministic function of the
seed, each perturbation applied with equal seed and noise parameters to
structurally identical stores yields identical stores. -/
theorem perturb_deterministic_in_seed
    (gauss : GaussStream) (r2 : RetractP2) (rp : RetractPose2)
    (r3 : RetractP3) (vs1 vs2 : Values) (sigma sigmaT sigmaR : ℚ)
    (seed : Int) (h : vs1 = vs2) :
    perturbPoint2 gauss r2 vs1 sigma seed =
      perturbPoint2 gauss r2 vs2 sigma seed ∧
    perturbPose2 gauss rp vs1 sigmaT sigmaR seed =
      perturbPose2 gauss rp vs2 sigmaT sigmaR seed ∧
    perturbPoint3 gauss r3 vs1 sigma seed =
      perturbPoint3 gauss r3 vs2 sigma seed := by
  subst h
  exact ⟨rfl, rfl, rfl⟩

/-- Witness for C6 at a concrete store, stream and retraction. -/
theorem perturb_deterministic_in_seed_witness :
    perturbPoint2 (fun _ n => (n : ℚ)) (fun p d => ⟨p.x + d.1, p.y + d.2⟩)
        [(1, GVal.vpoint2 ⟨0, 0⟩)] 1 7 =
      perturbPoint2 (fun _ n => (n : ℚ)) (fun p d => ⟨p.x + d.1, p.y + d.2⟩)
        [(1, GVal.vpoint2 ⟨0, 0⟩)] 1 7 ∧
    perturbPose2 (fun _ n => (n : ℚ)) (fun p _ => p)
        [(1, GVal.vpoint2 ⟨0, 0⟩)] 1 1 7 =
      perturbPose2 (fun _ n => (n : ℚ)) (fun p _ => p)
        [(1, GVal.vpoint2 ⟨0, 0⟩)] 1 1 7 ∧
    perturbPoint3 (fun _ n => (n : ℚ)) (fun p _ => p)
        [(1, GVal.vpoint2 ⟨0, 0⟩)] 1 7 =
      perturbPoint3 (fun _ n => (n : ℚ)) (fun p _ => p)
        [(1, GVal.vpoint2 ⟨0, 0⟩)] 1 7 :=
  perturb_deterministic_in_seed (fun _ n => (n : ℚ))
    (fun p d => ⟨p.x + d.1, p.y + d.2⟩) (fun p _ => p) (fun p _ => p)
    [(1, GVal.vpoint2 ⟨0, 0⟩)] [(1, GVal.vpoint2 ⟨0, 0⟩)] 1 1 1 7 rfl

/-- C5: a pixel matrix with row count other than 2, or with column count
different from the key list's length, makes both `insertBackprojections` and
`insertProjectionFactors` fail with the invalid-argument error; the error is
produced by the validation that precedes the insertion/append loop, so the
resulting computation carries no mutated store or graph. -/
theorem shape_error_before_mutation
    (camera : Backproject) (vs : Values) (graph : FactorGraph) (i : Key)
    (J : List Key) (Z : Mat) (depth : ℚ) (model calib : Nat) (off : Pose3)
    (h : matRowsN Z ≠ 2 ∨ matColsN Z ≠ J.length) :
    (∃ e, insertBackprojections camera vs J Z depth = Except.error e) ∧
    (∃ e, insertProjectionFactors graph i J Z model calib off =
      Except.error e) := by
  constructor
  · unfold insertBackprojections
    rcases h with h | h
    · exact ⟨_, by rw [if_pos h]⟩
    · by_cases hr : matRowsN Z ≠ 2
      · exact ⟨_, by rw [if_pos hr]⟩
      · exact ⟨_, by rw [if_neg hr, if_pos h]⟩
  · unfold insertProjectionFactors
    rcases h with h | h
    · exact ⟨_, by rw [if_pos h]⟩
    · by_cases hr : matRowsN Z ≠ 2
      · exact ⟨_, by rw [if_pos hr]⟩
      · exact ⟨_, by rw [if_neg hr, if_pos h]⟩

/-- Witness for C5: a 3-row pixel matrix is rejected by both operations. -/
theorem shape_error_before_mutation_witness :
    (∃ e, insertBackprojections (fun _ _ => ⟨0, 0, 0⟩) [] [7]
        [[1], [2], [3]] 5 = Except.error e) ∧
    (∃ e, insertProjectionFactors [] 0 [7] [[1], [2], [3]] 1 2
        ⟨⟨1, 0, 0, 0, 1, 0, 0, 0, 1⟩, 0, 0, 0⟩ = Except.error e) :=
  shape_error_before_mutation (fun _ _ => ⟨0, 0, 0⟩) [] [] 0 [7]
    [[1], [2], [3]] 5 1 2 ⟨⟨1, 0, 0, 0, 1, 0, 0, 0, 1⟩, 0, 0, 0⟩
    (Or.inl (by decide))

/-- C4: with a well-shaped 2-by-K pixel matrix (K = length of the landmark
key list), `insertProjectionFactors` appends exactly K Measurement Factors to
the graph, in column order, the `k`-th binding the pose key, landmark key
`J(k)`, the pixel `(Z(0,k), Z(1,k))`, the noise model, the calibration and
the sensor offset. -/
theorem insertProjectionFactors_appends_in_order
    (graph : FactorGraph) (i : Key) (J : List Key) (Z : Mat)
    (model calib : Nat) (off : Pose3)
    (h2 : matRowsN Z = 2) (hc : matColsN Z = J.length) :
    ∃ newF : List Factor,
      insertProjectionFactors graph i J Z model calib off =
        Except.ok (graph ++ newF) ∧
      newF.length = J.length ∧
      ∀ k, k < J.length →
        newF.getD k (Factor.other 0) =
          Factor.proj
            { poseKey := i, lmKey := J.getD k 0,
              px := matEntry Z 0 k, py := matEntry Z 1 k,
              noise := model, calib := calib, offset := off } := by
  refine ⟨(List.range (matColsN Z)).map (fun k =>
    Factor.proj
      { poseKey := i, lmKey := J.getD k 0,
        px := matEntry Z 0 k, py := matEntry Z 1 k,
        noise := model, calib := calib, offset := off }), ?_, ?_, ?_⟩
  · unfold insertProjectionFactors
    rw [if_neg (by rw [h2]; exact fun hh => hh rfl),
      if_neg (by rw [hc]; exact fun hh => hh rfl)]
  · simp [hc]
  · intro k hk
    have hk2 : k < ((List.range (matColsN Z)).map (fun k =>
        Factor.proj
          { poseKey := i, lmKey := J.getD k 0,
            px := matEntry Z 0 k, py := matEntry Z 1 k,
            noise := model, calib := calib, offset := off })).length := by
      simpa [hc] using hk
    rw [List.getD_eq_getElem _ _ hk2]
    simp

/-- Witness for C4 on a concrete 2-by-2 pixel matrix. -/
theorem insertProjectionFactors_appends_in_order_witness :
    ∃ newF : List Factor,
      insertProjectionFactors [Factor.other 9] 3 [7, 8] [[1, 2], [3, 4]] 1 2
          ⟨⟨1, 0, 0, 0, 1, 0, 0, 0, 1⟩, 0, 0, 0⟩ =
        Except.ok ([Factor.other 9] ++ newF) ∧
      newF.length = [7, 8].length ∧
      ∀ k, k < [7, 8].length →
        newF.getD k (Factor.other 0) =
          Factor.proj
            { poseKey := 3, lmKey := [7, 8].getD k 0,
              px := matEntry [[1, 2], [3, 4]] 0 k,
              py := matEntry [[1, 2], [3, 4]] 1 k,
              noise := 1, calib := 2,
              offset := ⟨⟨1, 0, 0, 0, 1, 0, 0, 0, 1⟩, 0, 0, 0⟩ } :=
  insertProjectionFactors_appends_in_order [Factor.other 9] 3 [7, 8]
    [[1, 2], [3, 4]] 1 2 ⟨⟨1, 0, 0, 0, 1, 0, 0, 0, 1⟩, 0, 0, 0⟩
    (by decide) (by decide)

/-- The Measurement-Factor count picked up by the collector's first pass is
the number of factors whose runtime kind is the projection kind. -/
theorem projFactors_length (graph : FactorGraph) :
    (projFactors graph).length = graph.countP isProjF := by
  induction graph with
  | nil => rfl
  | cons f rest ih =>
    simp only [projFactors] at ih ⊢
    cases f <;>
      simp [List.filterMap_cons, List.countP_cons, isProjF, ih]

/-- C2: `reprojectionErrors` returns a 2-by-K matrix with K the number of
factors of the projection Measurement-Factor kind; the `k`-th column is the
unwhitened residual of the `k`-th matching factor in graph order (other
factor kinds contribute nothing), and an empty graph gives a 2-by-0
matrix. -/
theorem reprojectionErrors_shape_and_columns
    (err : UnwhitenedError) (graph : FactorGraph) (vs : Values) :
    matRowsN (reprojectionErrors err graph vs) = 2 ∧
    matColsN (reprojectionErrors err graph vs) = graph.countP isProjF ∧
    (∀ k (hk : k < (projFactors graph).length),
      matCol (reprojectionErrors err graph vs) k =
        [(err ((projFactors graph).get ⟨k, hk⟩) vs).1,
         (err ((projFactors graph).get ⟨k, hk⟩) vs).2]) ∧
    reprojectionErrors err [] vs = [[], []] := by
  refine ⟨rfl, ?_, ?_, rfl⟩
  · rw [← projFactors_length]
    simp [reprojectionErrors, matColsN]
  · intro k hk
    have h1 : k < (((projFactors graph).map (fun p => err p vs)).map
        Prod.fst).length := by simpa using hk
    have h2 : k < (((projFactors graph).map (fun p => err p vs)).map
        Prod.snd).length := by simpa using hk
    simp only [reprojectionErrors, matCol, List.map_cons, List.map_nil]
    rw [List.getD_eq_getElem _ _ h1, List.getD_eq_getElem _ _ h2]
    simp

/-- Witness for C2 at a one-projection-factor graph. -/
theorem reprojectionErrors_shape_and_columns_witness :
    matRowsN (reprojectionErrors (fun p vs => (p.px, (vs.length : ℚ)))
      [Factor.other 4,
       Factor.proj ⟨1, 2, 5, 6, 0, 0, ⟨⟨1, 0, 0, 0, 1, 0, 0, 0, 1⟩, 0, 0, 0⟩⟩]
      []) = 2 ∧
    matColsN (reprojectionErrors (fun p vs => (p.px, (vs.length : ℚ)))
      [Factor.other 4,
       Factor.proj ⟨1, 2, 5, 6, 0, 0, ⟨⟨1, 0, 0, 0, 1, 0, 0, 0, 1⟩, 0, 0, 0⟩⟩]
      []) = List.countP isProjF
        [Factor.other 4,
         Factor.proj ⟨1, 2, 5, 6, 0, 0, ⟨⟨1, 0, 0, 0, 1, 0, 0, 0, 1⟩, 0, 0, 0⟩⟩] ∧
    (∀ k (hk : k < (projFactors
        [Factor.other 4,
         Factor.proj ⟨1, 2, 5, 6, 0, 0, ⟨⟨1, 0, 0, 0, 1, 0, 0, 0, 1⟩, 0, 0, 0⟩⟩]).length),
      matCol (reprojectionErrors (fun p vs => (p.px, (vs.length : ℚ)))
        [Factor.other 4,
         Factor.proj ⟨1, 2, 5, 6, 0, 0, ⟨⟨1, 0, 0, 0, 1, 0, 0, 0, 1⟩, 0, 0, 0⟩⟩]
        []) k =
        [((fun (p : ProjF) (vs : Values) => (p.px, (vs.length : ℚ)))
            ((projFactors
              [Factor.other 4,
               Factor.proj ⟨1, 2, 5, 6, 0, 0, ⟨⟨1, 0, 0, 0, 1, 0, 0, 0, 1⟩, 0, 0, 0⟩⟩]).get
              ⟨k, hk⟩) []).1,
         ((fun (p : ProjF) (vs : Values) => (p.px, (vs.length : ℚ)))
            ((projFactors
              [Factor.other 4,
               Factor.proj ⟨1, 2, 5, 6, 0, 0, ⟨⟨1, 0, 0, 0, 1, 0, 0, 0, 1⟩, 0, 0, 0⟩⟩]).get
              ⟨k, hk⟩) []).2]) ∧
    reprojectionErrors (fun p vs => (p.px, (vs.length : ℚ))) [] [] = [[], []] :=
  reprojectionErrors_shape_and_columns (fun p vs => (p.px, (vs.length : ℚ)))
    [Factor.other 4,
     Factor.proj ⟨1, 2, 5, 6, 0, 0, ⟨⟨1, 0, 0, 0, 1, 0, 0, 0, 1⟩, 0, 0, 0⟩⟩]
    []

/-- Decoding a symbolic key built from an 8-bit tag and an in-range index
recovers both exactly. -/
theorem symbolKey_decode (c j : Nat) (hc : c < 256) (hj : j < 2 ^ 56) :
    symbolChr (symbolKey c j) = c ∧ symbolIndex (symbolKey c j) = j := by
  unfold symbolKey symbolChr symbolIndex
  have h56 : (2 : ℕ) ^ 56 = 72057594037927936 := by norm_num
  rw [h56] at hj ⊢
  constructor <;> omega

/-- Membership in an ordered-set insertion. -/
theorem mem_keySetInsert (l : List Key) (a k : Key) :
    k ∈ keySetInsert l a ↔ k = a ∨ k ∈ l := by
  induction l with
  | nil => simp [keySetInsert]
  | cons b l ih =>
    by_cases h1 : a < b
    · simp [keySetInsert, h1, List.mem_cons]
    · by_cases h2 : a = b
      · subst h2
        simp [keySetInsert, h1, List.mem_cons]
      · simp [keySetInsert, h1, h2, List.mem_cons, ih]
        tauto

/-- Membership after folding ordered-set insertions over an index list. -/
theorem mem_foldl_keySetInsert (f : Nat → Key) (I : List Nat)
    (acc : List Key) (k : Key) :
    k ∈ I.foldl (fun a j => keySetInsert a (f j)) acc ↔
      k ∈ acc ∨ ∃ j ∈ I, k = f j := by
  induction I generalizing acc with
  | nil => simp
  | cons j I ih =>
    rw [List.foldl_cons, ih, mem_keySetInsert]
    constructor
    · rintro (⟨h | h⟩ | ⟨j2, hj2, h⟩)
      · exact Or.inr ⟨j, by simp, h⟩
      · exact Or.inl h
      · exact Or.inr ⟨j2, by simp [hj2], h⟩
    · rintro (h | ⟨j2, hj2, h⟩)
      · exact Or.inl (Or.inr h)
      · rcases List.mem_cons.mp hj2 with rfl | hj3
        · exact Or.inl (Or.inl h)
        · exact Or.inr ⟨j2, hj3, h⟩

/-- C8: each key built by the symbolic batch constructors is the symbolic
encoding of the FIRST character of the tag string paired with the
corresponding index; decoding recovers that (tag, index) pair exactly for
indices in the 56-bit encodable range; and any tag string with the same
first character yields the same keys. -/
theorem symbol_key_roundtrip (s : List Char) (I : List Nat) (i : Nat)
    (hi : i < I.length) (hj : I.getD i 0 < 2 ^ 56) :
    (createKeyListSym s I).getD i 0 = symbolKey (firstChar s) (I.getD i 0) ∧
    symbolChr (symbolKey (firstChar s) (I.getD i 0)) = firstChar s ∧
    symbolIndex (symbolKey (firstChar s) (I.getD i 0)) = I.getD i 0 ∧
    createKeyVectorSym s I = createKeyListSym s I ∧
    (∀ k, k ∈ createKeySetSym s I ↔
      ∃ j ∈ I, k = symbolKey (firstChar s) j) ∧
    (∀ t : List Char, firstChar t = firstChar s →
      createKeyListSym t I = createKeyListSym s I) := by
  have hfc : firstChar s < 256 := Nat.mod_lt _ (by norm_num)
  refine ⟨?_, (symbolKey_decode _ _ hfc hj).1, (symbolKey_decode _ _ hfc hj).2,
    rfl, ?_, ?_⟩
  · have hi2 : i < (createKeyListSym s I).length := by
      simpa [createKeyListSym] using hi
    rw [List.getD_eq_getElem _ _ hi2, List.getD_eq_getElem _ _ hi]
    simp [createKeyListSym]
  · intro k
    rw [createKeySetSym, mem_foldl_keySetInsert]
    simp
  · intro t ht
    unfold createKeyListSym
    rw [ht]

/-- Witness for C8 at tag "xy" and indices [5, 9]. -/
theorem symbol_key_roundtrip_witness :
    (createKeyListSym ['x', 'y'] [5, 9]).getD 1 0 =
      symbolKey (firstChar ['x', 'y']) ([5, 9].getD 1 0) ∧
    symbolChr (symbolKey (firstChar ['x', 'y']) ([5, 9].getD 1 0)) =
      firstChar ['x', 'y'] ∧
    symbolIndex (symbolKey (firstChar ['x', 'y']) ([5, 9].getD 1 0)) =
      [5, 9].getD 1 0 ∧
    createKeyVectorSym ['x', 'y'] [5, 9] = createKeyListSym ['x', 'y'] [5, 9] ∧
    (∀ k, k ∈ createKeySetSym ['x', 'y'] [5, 9] ↔
      ∃ j ∈ [5, 9], k = symbolKey (firstChar ['x', 'y']) j) ∧
    (∀ t : List Char, firstChar t = firstChar ['x', 'y'] →
      createKeyListSym t [5, 9] = createKeyListSym ['x', 'y'] [5, 9]) :=
  symbol_key_roundtrip ['x', 'y'] [5, 9] 1 (by decide) (by norm_num)

/-- With sigma 0 every sample is the zero tangent vector, so the point-2
perturbation walk rewrites each entry to its zero retraction. -/
theorem perturbPoint2Go_zero (gauss : GaussStream) (r2 : RetractP2)
    (seed : Int) (h2 : ∀ p, r2 p (0, 0) = p) :
    ∀ (l : List (Key × GVal)) (j : Nat),
      perturbPoint2Go gauss r2 0 seed l j = l := by
  intro l
  induction l with
  | nil => intro j; rfl
  | cons kv rest ih =>
    intro j
    rcases kv with ⟨k, g⟩
    have h2z : ∀ p, r2 p 0 = p := fun p => h2 p
    cases g <;> simp [perturbPoint2Go, ih, h2z]

/-- Zero-sigma walk for the diagonal pose-2 perturbation. -/
theorem perturbPose2Go_zero (gauss : GaussStream) (rp : RetractPose2)
    (seed : Int) (hp : ∀ p, rp p (0, 0, 0) = p) :
    ∀ (l : List (Key × GVal)) (j : Nat),
      perturbPose2Go gauss rp 0 0 0 seed l j = l := by
  intro l
  induction l with
  | nil => intro j; rfl
  | cons kv rest ih =>
    intro j
    rcases kv with ⟨k, g⟩
    have hpz : ∀ p, rp p 0 = p := fun p => hp p
    cases g <;> simp [perturbPose2Go, ih, hpz]

/-- Zero-sigma walk for the point-3 perturbation. -/
theorem perturbPoint3Go_zero (gauss : GaussStream) (r3 : RetractP3)
    (seed : Int) (h3 : ∀ p, r3 p (0, 0, 0) = p) :
    ∀ (l : List (Key × GVal)) (j : Nat),
      perturbPoint3Go gauss r3 0 seed l j = l := by
  intro l
  induction l with
  | nil => intro j; rfl
  | cons kv rest ih =>
    intro j
    rcases kv with ⟨k, g⟩
    have h3z : ∀ p, r3 p 0 = p := fun p => h3 p
    cases g <;> simp [perturbPoint3Go, ih, h3z]

/-- C7: with every noise magnitude zero (sigma = 0; sigmaT = sigmaR = 0 for
2-D poses) and the manifold update satisfying its zero-perturbation identity,
each perturbation function returns the store unchanged, for every store and
every seed. -/
theorem perturb_zero_noise_identity (gauss : GaussStream) (r2 : RetractP2)
    (rp : RetractPose2) (r3 : RetractP3) (vs : Values) (seed : Int)
    (h2 : ∀ p, r2 p (0, 0) = p) (hp : ∀ p, rp p (0, 0, 0) = p)
    (h3 : ∀ p, r3 p (0, 0, 0) = p) :
    perturbPoint2 gauss r2 vs 0 seed = vs ∧
    perturbPose2 gauss rp vs 0 0 seed = vs ∧
    perturbPoint3 gauss r3 vs 0 seed = vs :=
  ⟨perturbPoint2Go_zero gauss r2 seed h2 vs 0,
   perturbPose2Go_zero gauss rp seed hp vs 0,
   perturbPoint3Go_zero gauss r3 seed h3 vs 0⟩

/-- Witness for C7 at a mixed concrete store with additive retractions. -/
theorem perturb_zero_noise_identity_witness :
    perturbPoint2 (fun _ n => (n : ℚ) + 1)
        (fun p d => ⟨p.x + d.1, p.y + d.2⟩)
        [(1, GVal.vpoint2 ⟨2, 3⟩), (4, GVal.vpose2 ⟨1, 1, 1⟩)] 0 9 =
      [(1, GVal.vpoint2 ⟨2, 3⟩), (4, GVal.vpose2 ⟨1, 1, 1⟩)] ∧
    perturbPose2 (fun _ n => (n : ℚ) + 1)
        (fun p d => ⟨p.x + d.1, p.y + d.2.1, p.theta + d.2.2⟩)
        [(1, GVal.vpoint2 ⟨2, 3⟩), (4, GVal.vpose2 ⟨1, 1, 1⟩)] 0 0 9 =
      [(1, GVal.vpoint2 ⟨2, 3⟩), (4, GVal.vpose2 ⟨1, 1, 1⟩)] ∧
    perturbPoint3 (fun _ n => (n : ℚ) + 1)
        (fun p d => ⟨p.x + d.1, p.y + d.2.1, p.z + d.2.2⟩)
        [(1, GVal.vpoint2 ⟨2, 3⟩), (4, GVal.vpose2 ⟨1, 1, 1⟩)] 0 9 =
      [(1, GVal.vpoint2 ⟨2, 3⟩), (4, GVal.vpose2 ⟨1, 1, 1⟩)] :=
  perturb_zero_noise_identity (fun _ n => (n : ℚ) + 1)
    (fun p d => ⟨p.x + d.1, p.y + d.2⟩)
    (fun p d => ⟨p.x + d.1, p.y + d.2.1, p.theta + d.2.2⟩)
    (fun p d => ⟨p.x + d.1, p.y + d.2.1, p.z + d.2.2⟩)
    [(1, GVal.vpoint2 ⟨2, 3⟩), (4, GVal.vpose2 ⟨1, 1, 1⟩)] 9
    (fun p => by simp) (fun p => by simp) (fun p => by simp)

/-- Pass count: the 2-D point view has one entry per stored 2-D point. -/
theorem point2Entries_length (vs : Values) :
    (point2Entries vs).length = vs.countP isPoint2E := by
  induction vs with
  | nil => rfl
  | cons kv rest ih =>
    simp only [point2Entries] at ih ⊢
    rcases kv with ⟨k, g⟩
    cases g <;> simp [List.filterMap_cons, List.countP_cons, isPoint2E, ih]

/-- Pass count for the 3-D point view. -/
theorem point3Entries_length (vs : Values) :
    (point3Entries vs).length = vs.countP isPoint3E := by
  induction vs with
  | nil => rfl
  | cons kv rest ih =>
    simp only [point3Entries] at ih ⊢
    rcases kv with ⟨k, g⟩
    cases g <;> simp [List.filterMap_cons, List.countP_cons, isPoint3E, ih]

/-- Pass count for the 2-D pose view. -/
theorem pose2Entries_length (vs : Values) :
    (pose2Entries vs).length = vs.countP isPose2E := by
  induction vs with
  | nil => rfl
  | cons kv rest ih =>
    simp only [pose2Entries] at ih ⊢
    rcases kv with ⟨k, g⟩
    cases g <;> simp [List.filterMap_cons, List.countP_cons, isPose2E, ih]

/-- Pass count for the 3-D pose view. -/
theorem pose3Entries_length (vs : Values) :
    (pose3Entries vs).length = vs.countP isPose3E := by
  induction vs with
  | nil => rfl
  | cons kv rest ih =>
    simp only [pose3Entries] at ih ⊢
    rcases kv with ⟨k, g⟩
    cases g <;> simp [List.filterMap_cons, List.countP_cons, isPose3E, ih]

/-- The 2-D point view of a sorted store is itself in ascending key order. -/
theorem point2Entries_ascending (vs : Values) (h : ValuesSorted vs) :
    (point2Entries vs).Pairwise (fun a b => a.1 < b.1) := by
  unfold point2Entries
  refine pairwise_keys_filterMap _ ?_ vs h
  intro kv p hp
  rcases kv with ⟨k, g⟩
  cases g <;> cases hp <;> rfl

/-- Ascending key order of the 3-D point view. -/
theorem point3Entries_ascending (vs : Values) (h : ValuesSorted vs) :
    (point3Entries vs).Pairwise (fun a b => a.1 < b.1) := by
  unfold point3Entries
  refine pairwise_keys_filterMap _ ?_ vs h
  intro kv p hp
  rcases kv with ⟨k, g⟩
  cases g <;> cases hp <;> rfl

/-- Ascending key order of the 2-D pose view. -/
theorem pose2Entries_ascending (vs : Values) (h : ValuesSorted vs) :
    (pose2Entries vs).Pairwise (fun a b => a.1 < b.1) := by
  unfold pose2Entries
  refine pairwise_keys_filterMap _ ?_ vs h
  intro kv p hp
  rcases kv with ⟨k, g⟩
  cases g <;> cases hp <;> rfl

/-- Ascending key order of the 3-D pose view. -/
theorem pose3Entries_ascending (vs : Values) (h : ValuesSorted vs) :
    (pose3Entries vs).Pairwise (fun a b => a.1 < b.1) := by
  unfold pose3Entries
  refine pairwise_keys_filterMap _ ?_ vs h
  intro kv p hp
  rcases kv with ⟨k, g⟩
  cases g <;> cases hp <;> rfl

/-- Row `k` of `extractPoint2` is the `[x, y]` layout of the `k`-th filtered
entry. -/
theorem extractPoint2_row (vs : Values) (k : Nat)
    (hk : k < (point2Entries vs).length) :
    (extractPoint2 vs).getD k [] =
      [((point2Entries vs).get ⟨k, hk⟩).2.x,
       ((point2Entries vs).get ⟨k, hk⟩).2.y] := by
  have hk2 : k < (extractPoint2 vs).length := by
    simpa [extractPoint2] using hk
  rw [List.getD_eq_getElem _ _ hk2]
  simp [extractPoint2]

/-- Row `k` of `extractPoint3` is the `[x, y, z]` layout of the `k`-th
filtered entry. -/
theorem extractPoint3_row (vs : Values) (k : Nat)
    (hk : k < (point3Entries vs).length) :
    (extractPoint3 vs).getD k [] =
      [((point3Entries vs).get ⟨k, hk⟩).2.x,
       ((point3Entries vs).get ⟨k, hk⟩).2.y,
       ((point3Entries vs).get ⟨k, hk⟩).2.z] := by
  have hk2 : k < (extractPoint3 vs).length := by
    simpa [extractPoint3] using hk
  rw [List.getD_eq_getElem _ _ hk2]
  simp [extractPoint3]

/-- Row `k` of `extractPose2` is the `[x, y, theta]` layout of the `k`-th
filtered entry. -/
theorem extractPose2_row (vs : Values) (k : Nat)
    (hk : k < (pose2Entries vs).length) :
    (extractPose2 vs).getD k [] =
      [((pose2Entries vs).get ⟨k, hk⟩).2.x,
       ((pose2Entries vs).get ⟨k, hk⟩).2.y,
       ((pose2Entries vs).get ⟨k, hk⟩).2.theta] := by
  have hk2 : k < (extractPose2 vs).length := by
    simpa [extractPose2] using hk
  rw [List.getD_eq_getElem _ _ hk2]
  simp [extractPose2]

/-- Row `k` of `extractPose3` is the row-major rotation followed by the
translation of the `k`-th filtered entry. -/
theorem extractPose3_row (vs : Values) (k : Nat)
    (hk : k < (pose3Entries vs).length) :
    (extractPose3 vs).getD k [] =
      [((pose3Entries vs).get ⟨k, hk⟩).2.rot.r11,
       ((pose3Entries vs).get ⟨k, hk⟩).2.rot.r12,
       ((pose3Entries vs).get ⟨k, hk⟩).2.rot.r13,
       ((pose3Entries vs).get ⟨k, hk⟩).2.rot.r21,
       ((pose3Entries vs).get ⟨k, hk⟩).2.rot.r22,
       ((pose3Entries vs).get ⟨k, hk⟩).2.rot.r23,
       ((pose3Entries vs).get ⟨k, hk⟩).2.rot.r31,
       ((pose3Entries vs).get ⟨k, hk⟩).2.rot.r32,
       ((pose3Entries vs).get ⟨k, hk⟩).2.rot.r33,
       ((pose3Entries vs).get ⟨k, hk⟩).2.tx,
       ((pose3Entries vs).get ⟨k, hk⟩).2.ty,
       ((pose3Entries vs).get ⟨k, hk⟩).2.tz] := by
  have hk2 : k < (extractPose3 vs).length := by
    simpa [extractPose3] using hk
  rw [List.getD_eq_getElem _ _ hk2]
  simp [extractPose3]

/-- C1: every extractor returns one row per entry of the requested type; a
store with zero matching entries yields a zero-row matrix; the rows follow
the filtered view, which is in ascending key order for a sorted store, with
the fixed type-specific layout (2 columns x, y; 3 columns x, y, z; 3 columns
x, y, heading; 12 columns row-major rotation then translation). -/
theorem extract_rows_ascending_layout (vs : Values) (hs : ValuesSorted vs) :
    ((extractPoint2 vs).length = vs.countP isPoint2E ∧
      (point2Entries vs).Pairwise (fun a b => a.1 < b.1) ∧
      (∀ k (hk : k < (point2Entries vs).length),
        (extractPoint2 vs).getD k [] =
          [((point2Entries vs).get ⟨k, hk⟩).2.x,
           ((point2Entries vs).get ⟨k, hk⟩).2.y]) ∧
      (vs.countP isPoint2E = 0 → extractPoint2 vs = [])) ∧
    ((extractPoint3 vs).length = vs.countP isPoint3E ∧
      (point3Entries vs).Pairwise (fun a b => a.1 < b.1) ∧
      (∀ k (hk : k < (point3Entries vs).length),
        (extractPoint3 vs).getD k [] =
          [((point3Entries vs).get ⟨k, hk⟩).2.x,
           ((point3Entries vs).get ⟨k, hk⟩).2.y,
           ((point3Entries vs).get ⟨k, hk⟩).2.z]) ∧
      (vs.countP isPoint3E = 0 → extractPoint3 vs = [])) ∧
    ((extractPose2 vs).length = vs.countP isPose2E ∧
      (pose2Entries vs).Pairwise (fun a b => a.1 < b.1) ∧
      (∀ k (hk : k < (pose2Entries vs).length),
        (extractPose2 vs).getD k [] =
          [((pose2Entries vs).get ⟨k, hk⟩).2.x,
           ((pose2Entries vs).get ⟨k, hk⟩).2.y,
           ((pose2Entries vs).get ⟨k, hk⟩).2.theta]) ∧
      (vs.countP isPose2E = 0 → extractPose2 vs = [])) ∧
    ((extractPose3 vs).length = vs.countP isPose3E ∧
      (pose3Entries vs).Pairwise (fun a b => a.1 < b.1) ∧
      (∀ k (hk : k < (pose3Entries vs).length),
        (extractPose3 vs).getD k [] =
          [((pose3Entries vs).get ⟨k, hk⟩).2.rot.r11,
           ((pose3Entries vs).get ⟨k, hk⟩).2.rot.r12,
           ((pose3Entries vs).get ⟨k, hk⟩).2.rot.r13,
           ((pose3Entries vs).get ⟨k, hk⟩).2.rot.r21,
           ((pose3Entries vs).get ⟨k, hk⟩).2.rot.r22,
           ((pose3Entries vs).get ⟨k, hk⟩).2.rot.r23,
           ((pose3Entries vs).get ⟨k, hk⟩).2.rot.r31,
           ((pose3Entries vs).get ⟨k, hk⟩).2.rot.r32,
           ((pose3Entries vs).get ⟨k, hk⟩).2.rot.r33,
           ((pose3Entries vs).get ⟨k, hk⟩).2.tx,
           ((pose3Entries vs).get ⟨k, hk⟩).2.ty,
           ((pose3Entries vs).get ⟨k, hk⟩).2.tz]) ∧
      (vs.countP isPose3E = 0 → extractPose3 vs = [])) := by
  have l2 : (extractPoint2 vs).length = vs.countP isPoint2E := by
    rw [extractPoint2, List.length_map, point2Entries_length]
  have l3 : (extractPoint3 vs).length = vs.countP isPoint3E := by
    rw [extractPoint3, List.length_map, point3Entries_length]
  have lp2 : (extractPose2 vs).length = vs.countP isPose2E := by
    rw [extractPose2, List.length_map, pose2Entries_length]
  have lp3 : (extractPose3 vs).length = vs.countP isPose3E := by
    rw [extractPose3, List.length_map, pose3Entries_length]
  refine ⟨⟨l2, point2Entries_ascending vs hs, extractPoint2_row vs, ?_⟩,
    ⟨l3, point3Entries_ascending vs hs, extractPoint3_row vs, ?_⟩,
    ⟨lp2, pose2Entries_ascending vs hs, extractPose2_row vs, ?_⟩,
    ⟨lp3, pose3Entries_ascending vs hs, extractPose3_row vs, ?_⟩⟩
  · intro h0
    exact List.length_eq_zero.mp (l2.trans h0)
  · intro h0
    exact List.length_eq_zero.mp (l3.trans h0)
  · intro h0
    exact List.length_eq_zero.mp (lp2.trans h0)
  · intro h0
    exact List.length_eq_zero.mp (lp3.trans h0)

/-- Witness for C1 on the concrete mixed store. -/
theorem extract_rows_ascending_layout_witness :
    ValuesSorted demoStore ∧
    (((extractPoint2 demoStore).length = demoStore.countP isPoint2E ∧
      (point2Entries demoStore).Pairwise (fun a b => a.1 < b.1) ∧
      (∀ k (hk : k < (point2Entries demoStore).length),
        (extractPoint2 demoStore).getD k [] =
          [((point2Entries demoStore).get ⟨k, hk⟩).2.x,
           ((point2Entries demoStore).get ⟨k, hk⟩).2.y]) ∧
      (demoStore.countP isPoint2E = 0 → extractPoint2 demoStore = [])) ∧
    ((extractPoint3 demoStore).length = demoStore.countP isPoint3E ∧
      (point3Entries demoStore).Pairwise (fun a b => a.1 < b.1) ∧
      (∀ k (hk : k < (point3Entries demoStore).length),
        (extractPoint3 demoStore).getD k [] =
          [((point3Entries demoStore).get ⟨k, hk⟩).2.x,
           ((point3Entries demoStore).get ⟨k, hk⟩).2.y,
           ((point3Entries demoStore).get ⟨k, hk⟩).2.z]) ∧
      (demoStore.countP isPoint3E = 0 → extractPoint3 demoStore = [])) ∧
    ((extractPose2 demoStore).length = demoStore.countP isPose2E ∧
      (pose2Entries demoStore).Pairwise (fun a b => a.1 < b.1) ∧
      (∀ k (hk : k < (pose2Entries demoStore).length),
        (extractPose2 demoStore).getD k [] =
          [((pose2Entries demoStore).get ⟨k, hk⟩).2.x,
           ((pose2Entries demoStore).get ⟨k, hk⟩).2.y,
           ((pose2Entries demoStore).get ⟨k, hk⟩).2.theta]) ∧
      (demoStore.countP isPose2E = 0 → extractPose2 demoStore = [])) ∧
    ((extractPose3 demoStore).length = demoStore.countP isPose3E ∧
      (pose3Entries demoStore).Pairwise (fun a b => a.1 < b.1) ∧
      (∀ k (hk : k < (pose3Entries demoStore).length),
        (extractPose3 demoStore).getD k [] =
          [((pose3Entries demoStore).get ⟨k, hk⟩).2.rot.r11,
           ((pose3Entries demoStore).get ⟨k, hk⟩).2.rot.r12,
           ((pose3Entries demoStore).get ⟨k, hk⟩).2.rot.r13,
           ((pose3Entries demoStore).get ⟨k, hk⟩).2.rot.r21,
           ((pose3Entries demoStore).get ⟨k, hk⟩).2.rot.r22,
           ((pose3Entries demoStore).get ⟨k, hk⟩).2.rot.r23,
           ((pose3Entries demoStore).get ⟨k, hk⟩).2.rot.r31,
           ((pose3Entries demoStore).get ⟨k, hk⟩).2.rot.r32,
           ((pose3Entries demoStore).get ⟨k, hk⟩).2.rot.r33,
           ((pose3Entries demoStore).get ⟨k, hk⟩).2.tx,
           ((pose3Entries demoStore).get ⟨k, hk⟩).2.ty,
           ((pose3Entries demoStore).get ⟨k, hk⟩).2.tz]) ∧
      (demoStore.countP isPose3E = 0 → extractPose3 demoStore = []))) :=
  ⟨by decide, extract_rows_ascending_layout demoStore (by decide)⟩

/-- Lookup misses every list whose keys all differ from the query. -/
theorem vlookup_none_of_forall (l : Values) (k : Key)
    (h : ∀ b ∈ l, b.1 ≠ k) : vlookup l k = none := by
  induction l with
  | nil => rfl
  | cons kv rest ih =>
    have hk : kv.1 ≠ k := h kv (by simp)
    rcases kv with ⟨k0, v0⟩
    simp only [vlookup]
    rw [if_neg (fun he => hk he.symm)]
    exact ih (fun b hb => h b (by simp [hb]))

/-- A successful `insertV` makes the new key resolve to the new value and
leaves every other lookup unchanged. -/
theorem vlookup_insertV_ok :
    ∀ (w : Values) (k : Key) (v : GVal) (w2 : Values),
      insertV w k v = Except.ok w2 →
      ∀ k2, vlookup w2 k2 = if k2 = k then some v else vlookup w k2 := by
  intro w
  induction w with
  | nil =>
    intro k v w2 h k2
    simp only [insertV, Except.ok.injEq] at h
    subst h
    simp [vlookup]
  | cons kv rest ih =>
    rcases kv with ⟨k0, v0⟩
    intro k v w2 h k2
    simp only [insertV] at h
    by_cases h1 : k < k0
    · rw [if_pos h1] at h
      injection h with h
      subst h
      by_cases hk : k2 = k
      · simp [vlookup, hk]
      · simp [vlookup, hk]
    · rw [if_neg h1] at h
      by_cases h2 : k = k0
      · rw [if_pos h2] at h
        cases h
      · rw [if_neg h2] at h
        cases hrec : insertV rest k v with
        | error e => rw [hrec] at h; cases h
        | ok w3 =>
          rw [hrec] at h
          injection h with h
          subst h
          by_cases hk0 : k2 = k0
          · subst hk0
            have hne : ¬k2 = k := fun he => h2 (he ▸ rfl)
            simp [vlookup, hne]
          · by_cases hk : k2 = k
            · subst hk
              simp [vlookup, hk0, ih k2 v w3 hrec k2]
            · simp [vlookup, hk0, hk, ih k v w3 hrec k2]

/-- On a sorted store, a successful insertion means the key was absent. -/
theorem insertV_ok_lookup_none :
    ∀ (w : Values) (k : Key) (v : GVal) (w2 : Values), ValuesSorted w →
      insertV w k v = Except.ok w2 → vlookup w k = none := by
  intro w
  induction w with
  | nil => intro k v w2 _ _; rfl
  | cons kv rest ih =>
    rcases kv with ⟨k0, v0⟩
    intro k v w2 hw h
    obtain ⟨hk0, hrest⟩ := List.pairwise_cons.mp hw
    simp only [insertV] at h
    by_cases h1 : k < k0
    · rw [if_pos h1] at h
      have hne : k ≠ k0 := Nat.ne_of_lt h1
      simp only [vlookup]
      rw [if_neg hne]
      exact vlookup_none_of_forall rest k
        (fun b hb => Nat.ne_of_gt (Nat.lt_trans h1 (hk0 b hb)))
    · rw [if_neg h1] at h
      by_cases h2 : k = k0
      · rw [if_pos h2] at h
        cases h
      · rw [if_neg h2] at h
        simp only [vlookup]
        rw [if_neg h2]
        cases hrec : insertV rest k v with
        | error e => rw [hrec] at h; cases h
        | ok w3 => exact ih k v w3 hrest hrec

/-- A failed insertion means the key was already bound. -/
theorem insertV_error_lookup_some :
    ∀ (w : Values) (k : Key) (v : GVal) (e : String),
      insertV w k v = Except.error e → ∃ u, vlookup w k = some u := by
  intro w
  induction w with
  | nil => intro k v e h; cases h
  | cons kv rest ih =>
    rcases kv with ⟨k0, v0⟩
    intro k v e h
    simp only [insertV] at h
    by_cases h1 : k < k0
    · rw [if_pos h1] at h; cases h
    · rw [if_neg h1] at h
      by_cases h2 : k = k0
      · exact ⟨v0, by simp [vlookup, h2]⟩
      · rw [if_neg h2] at h
        cases hrec : insertV rest k v with
        | ok w3 => rw [hrec] at h; cases h
        | error e2 =>
          obtain ⟨u, hu⟩ := ih k v e2 hrec
          exact ⟨u, by simp [vlookup, h2, hu]⟩

/-- Every entry of a successful insertion's result is an old entry or the
new binding. -/
theorem insertV_ok_mem :
    ∀ (w : Values) (k : Key) (v : GVal) (w2 : Values),
      insertV w k v = Except.ok w2 →
      ∀ b ∈ w2, b ∈ w ∨ b = (k, v) := by
  intro w
  induction w with
  | nil =>
    intro k v w2 h b hb
    simp only [insertV, Except.ok.injEq] at h
    subst h
    simp only [List.mem_singleton] at hb
    exact Or.inr hb
  | cons kv rest ih =>
    rcases kv with ⟨k0, v0⟩
    intro k v w2 h b hb
    simp only [insertV] at h
    by_cases h1 : k < k0
    · rw [if_pos h1] at h
      injection h with h
      subst h
      rcases List.mem_cons.mp hb with rfl | hb2
      · exact Or.inr rfl
      · exact Or.inl hb2
    · rw [if_neg h1] at h
      by_cases h2 : k = k0
      · rw [if_pos h2] at h; cases h
      · rw [if_neg h2] at h
        cases hrec : insertV rest k v with
        | error e => rw [hrec] at h; cases h
        | ok w3 =>
          rw [hrec] at h
          injection h with h
          subst h
          rcases List.mem_cons.mp hb with rfl | hb2
          · exact Or.inl (by simp)
          · rcases ih k v w3 hrec b hb2 with hmem | hnew
            · exact Or.inl (by simp [hmem])
            · exact Or.inr hnew

/-- A successful insertion into a sorted store stays sorted. -/
theorem insertV_ok_sorted :
    ∀ (w : Values) (k : Key) (v : GVal) (w2 : Values), ValuesSorted w →
      insertV w k v = Except.ok w2 → ValuesSorted w2 := by
  intro w
  induction w with
  | nil =>
    intro k v w2 _ h
    simp only [insertV, Except.ok.injEq] at h
    subst h
    simp
  | cons kv rest ih =>
    rcases kv with ⟨k0, v0⟩
    intro k v w2 hw h
    obtain ⟨hk0, hrest⟩ := List.pairwise_cons.mp hw
    simp only [insertV] at h
    by_cases h1 : k < k0
    · rw [if_pos h1] at h
      injection h with h
      subst h
      refine List.pairwise_cons.mpr ⟨?_, hw⟩
      intro b hb
      rcases List.mem_cons.mp hb with rfl | hb2
      · exact h1
      · exact Nat.lt_trans h1 (hk0 b hb2)
    · rw [if_neg h1] at h
      by_cases h2 : k = k0
      · rw [if_pos h2] at h; cases h
      · rw [if_neg h2] at h
        cases hrec : insertV rest k v with
        | error e => rw [hrec] at h; cases h
        | ok w3 =>
          rw [hrec] at h
          injection h with h
          subst h
          refine List.pairwise_cons.mpr ⟨?_, ih k v w3 hrest hrec⟩
          intro b hb
          rcases insertV_ok_mem rest k v w3 hrec b hb with hmem | rfl
          · exact hk0 b hmem
          · exact Nat.lt_of_le_of_ne (Nat.le_of_not_lt h1)
              (fun he => h2 he.symm)

/-- One retargeting step keeps the output store sorted. -/
theorem localToWorldStep_sorted (compose : ComposeP) (tf : TransformFromP)
    (loc : Values) (base : Pose2) (w : Values) (key : Key)
    (hw : ValuesSorted w) :
    ValuesSorted (localToWorldStep compose tf loc base w key) := by
  unfold localToWorldStep
  cases h1 : atPose2 loc key with
  | some pose =>
    dsimp only
    cases hins : insertV w key (GVal.vpose2 (compose base pose)) with
    | ok w2 =>
      dsimp only
      exact insertV_ok_sorted w key _ w2 hw hins
    | error e =>
      dsimp only
      cases h2 : atPoint2 loc key with
      | some point =>
        dsimp only
        cases hins2 : insertV w key (GVal.vpoint2 (tf base point)) with
        | ok w2 =>
          dsimp only
          exact insertV_ok_sorted w key _ w2 hw hins2
        | error e2 => exact hw
      | none => exact hw
  | none =>
    dsimp only
    cases h2 : atPoint2 loc key with
    | some point =>
      dsimp only
      cases hins2 : insertV w key (GVal.vpoint2 (tf base point)) with
      | ok w2 =>
        dsimp only
        exact insertV_ok_sorted w key _ w2 hw hins2
      | error e2 => exact hw
    | none => exact hw

/-- Lookup after one retargeting step: the processed key resolves to its old
binding if it had one, else to what the precedence chain assigns it; other
keys are untouched. -/
theorem vlookup_localToWorldStep (compose : ComposeP) (tf : TransformFromP)
    (loc : Values) (base : Pose2) (w : Values) (key k2 : Key)
    (hw : ValuesSorted w) :
    vlookup (localToWorldStep compose tf loc base w key) k2 =
      if k2 = key then
        oor (vlookup w key) (retargetExpected compose tf loc base key)
      else vlookup w k2 := by
  unfold localToWorldStep retargetExpected
  cases hl : vlookup loc key with
  | none =>
    simp only [atPose2, atPoint2, hl]
    by_cases hk : k2 = key
    · subst hk
      rw [if_pos rfl]
      cases vlookup w k2 <;> simp [oor]
    · rw [if_neg hk]
  | some g =>
    cases g with
    | vpose2 a =>
      simp only [atPose2, atPoint2, hl]
      cases hins : insertV w key (GVal.vpose2 (compose base a)) with
      | ok w2 =>
        have hnone := insertV_ok_lookup_none w key _ w2 hw hins
        rw [vlookup_insertV_ok w key _ w2 hins k2]
        by_cases hk : k2 = key
        · subst hk
          rw [if_pos rfl, if_pos rfl, hnone]
          simp [oor]
        · rw [if_neg hk, if_neg hk]
      | error e =>
        obtain ⟨u, hu⟩ := insertV_error_lookup_some w key _ e hins
        by_cases hk : k2 = key
        · subst hk
          rw [if_pos rfl, hu]
          simp [oor]
        · rw [if_neg hk]
    | vpoint2 b =>
      simp only [atPose2, atPoint2, hl]
      cases hins : insertV w key (GVal.vpoint2 (tf base b)) with
      | ok w2 =>
        have hnone := insertV_ok_lookup_none w key _ w2 hw hins
        rw [vlookup_insertV_ok w key _ w2 hins k2]
        by_cases hk : k2 = key
        · subst hk
          rw [if_pos rfl, if_pos rfl, hnone]
          simp [oor]
        · rw [if_neg hk, if_neg hk]
      | error e =>
        obtain ⟨u, hu⟩ := insertV_error_lookup_some w key _ e hins
        by_cases hk : k2 = key
        · subst hk
          rw [if_pos rfl, hu]
          simp [oor]
        · rw [if_neg hk]
    | vpoint3 p =>
      simp only [atPose2, atPoint2, hl]
      by_cases hk : k2 = key
      · subst hk
        rw [if_pos rfl]
        cases vlookup w k2 <;> simp [oor]
      · rw [if_neg hk]
    | vpose3 p =>
      simp only [atPose2, atPoint2, hl]
      by_cases hk : k2 = key
      · subst hk
        rw [if_pos rfl]
        cases vlookup w k2 <;> simp [oor]
      · rw [if_neg hk]
    | vother t =>
      simp only [atPose2, atPoint2, hl]
      by_cases hk : k2 = key
      · subst hk
        rw [if_pos rfl]
        cases vlookup w k2 <;> simp [oor]
      · rw [if_neg hk]

/-- Lookup after the whole retargeting fold: keys in the processed list
resolve to what the precedence chain assigns them (first occurrence wins, and
repeated occurrences assign the same value); other keys stay as in the
initial store. -/
theorem vlookup_foldl_localToWorldStep (compose : ComposeP)
    (tf : TransformFromP) (loc : Values) (base : Pose2) :
    ∀ (ks : List Key) (w0 : Values), ValuesSorted w0 → ∀ k2,
      vlookup (ks.foldl (localToWorldStep compose tf loc base) w0) k2 =
        oor (vlookup w0 k2)
          (if k2 ∈ ks then retargetExpected compose tf loc base k2
           else none) := by
  intro ks
  induction ks with
  | nil =>
    intro w0 hw k2
    simp only [List.foldl_nil, List.not_mem_nil, if_false]
    cases vlookup w0 k2 <;> simp [oor]
  | cons key ks ih =>
    intro w0 hw k2
    rw [List.foldl_cons,
      ih (localToWorldStep compose tf loc base w0 key)
        (localToWorldStep_sorted compose tf loc base w0 key hw) k2,
      vlookup_localToWorldStep compose tf loc base w0 key k2 hw]
    by_cases hk : k2 = key
    · subst hk
      rw [if_pos rfl, if_pos (List.mem_cons_self k2 ks)]
      by_cases hmem : k2 ∈ ks
      · rw [if_pos hmem]
        cases vlookup w0 k2 <;>
          cases retargetExpected compose tf loc base k2 <;> simp [oor]
      · rw [if_neg hmem]
        cases vlookup w0 k2 <;>
          cases retargetExpected compose tf loc base k2 <;> simp [oor]
    · rw [if_neg hk]
      by_cases hmem : k2 ∈ ks
      · rw [if_pos hmem, if_pos (List.mem_cons_of_mem key hmem)]
      · rw [if_neg hmem, if_neg (fun hc =>
          (List.mem_cons.mp hc).elim (fun he => hk he) hmem)]

/-- C3: `localToWorld` builds a fresh store over the given keys — or all of
the input store's keys when none are given — in which a key holding a 2-D
pose `a` maps to `compose base a`, a key holding a 2-D point `b` (and not a
pose) maps to `tf base b`, and a key holding neither type, or absent from
the input, has no output entry; keys outside the processed list have no
output entry either.  The input store is passed by value and never
written. -/
theorem localToWorld_retarget_spec (compose : ComposeP) (tf : TransformFromP)
    (loc : Values) (base : Pose2) (user_keys : List Key) (key : Key) :
    vlookup (localToWorld compose tf loc base user_keys) key =
      if key ∈ (if user_keys.isEmpty then loc.map Prod.fst else user_keys)
      then retargetExpected compose tf loc base key
      else none := by
  unfold localToWorld
  rw [vlookup_foldl_localToWorldStep compose tf loc base _ [] (by simp) key]
  simp only [vlookup]
  cases hif : (if key ∈ (if user_keys.isEmpty then loc.map Prod.fst
      else user_keys) then retargetExpected compose tf loc base key
      else none) <;> simp [oor]
